import Mathlib

/-
Verification of the Rive high-level playback controller
(src/web/04_higher_level/public/javascripts/main.js).

Shallow embedding: the stateful parts of the controller (task queue,
event emission, play, the draw/loop-classification pass) are translated
into pure Lean functions over explicit state.  External collaborators
(the Wasm engine, fetch, the canvas, requestAnimationFrame) are modelled
as opaque data or counters, as noted at each definition.
-/

/-! ### Loop classification (main.js, _draw lines 323-332 and 351-379) -/

/-- Accumulation of raw didLoop signals into the per-instance loop counter
(lines 323-327): each advance that reports didLoop adds one. -/
def accumulateSignals (count : Nat) (didLoops : List Bool) : Nat :=
  didLoops.foldl (fun c b => if b then c + 1 else c) count

/-- The classification switch of _draw (lines 351-379) for one animation:
given the loopValue of the animation and the accumulated loop count,
returns (number of LoopEvents emitted on this pass, new loop count).
Case 0 (oneShot) does nothing; case 1 (loop) emits when the count is
non-zero (JS truthiness of loopCounts[i]) and resets it; case 2 (pingPong)
emits when the count exceeds 1 and resets it; any other value matches no
case of the switch. -/
def classifyLoop (loopValue : Nat) (count : Nat) : Nat × Nat :=
  match loopValue with
  | 0 => (0, count)
  | 1 => if count ≠ 0 then (1, 0) else (0, count)
  | 2 => if 1 < count then (1, 0) else (0, count)
  | _ => (0, count)

/-! ### LoopEvent (main.js, lines 49-62) -/

/-- Loop types; the index of the type is the value that comes from Wasm
(line 49). -/
def loopTypes : List String := ["oneShot", "loop", "pingPong"]

/-- The fields a LoopEvent object carries; a field that the constructor
never assigns is none (undefined in JS). -/
structure LoopEventObj where
  animationName : Option String
  loopType : Option Int
  loopName : Option String
deriving DecidableEq

/-- LoopEvent constructor (lines 54-62).  Returns the constructed object
together with a flag recording whether the invalid-loop-value error was
logged (in which case the constructor returns early and assigns no
fields).  The guard is the literal source condition
loopValue < 0 || loopValue > loopTypes.length, and loopName is the JS
indexing loopTypes[loopValue], undefined when out of range. -/
def mkLoopEvent (animationName : String) (loopValue : Int) : LoopEventObj × Bool :=
  if loopValue < 0 ∨ loopValue > (loopTypes.length : Int) then
    (⟨none, none, none⟩, true)
  else
    (⟨some animationName, some loopValue, loopTypes.get? loopValue.toNat⟩, false)

/-! ### The task queue (_loadQueue, main.js lines 224-242), generic model

Tasks are { event, action? }; actions are opaque and identified by a
natural number, so that executions can be counted.  The result of one
advance records the new queue, the ids of the actions invoked, and
whether the advance attempted to invoke a missing action (the JS
TypeError raised by task.action() when action is undefined). -/

structure QTask where
  event : String
  action : Option Nat
deriving DecidableEq

structure QRun where
  queue : List QTask
  executed : List Nat
  crashed : Bool
deriving DecidableEq

/-- _loadQueue (lines 224-242).  With an event argument: if the head task
is gated on that event it is shifted off and _loadQueue recurses with no
argument; otherwise nothing happens.  With no argument (none): the head
never matches (task.event === undefined is false for string events), and
the trailing if (!event) runs task.action() --- which raises if the head
has no action.  The recursion is on the queue, exactly as in the source
(shift before the recursive call). -/
def loadQueue : List QTask → Option String → QRun
  | [], _ => ⟨[], [], false⟩
  | t :: rest, event =>
    let after : QRun :=
      if event = some t.event then loadQueue rest none
      else ⟨t :: rest, [], false⟩
    match event with
    | some _ => after
    | none =>
      match t.action with
      | some a => ⟨after.queue, after.executed ++ [a], after.crashed⟩
      | none => ⟨after.queue, after.executed, true⟩

/-- Advancing the queue with a sequence of fired milestones, one _emit at
a time (each _emit calls _loadQueue with the fired event, line 212). -/
def advanceSeq (q : List QTask) (events : List String) : List QTask :=
  events.foldl (fun acc e => (loadQueue acc (some e)).queue) q

theorem loadQueue_none_queue (q : List QTask) : (loadQueue q none).queue = q := by
  cases q with
  | nil => rfl
  | cons t rest =>
    obtain ⟨e, a⟩ := t
    cases a <;> rfl

theorem loadQueue_none_executed (t : QTask) (rest : List QTask) :
    (loadQueue (t :: rest) none).executed = t.action.toList := by
  obtain ⟨e, a⟩ := t
  cases a <;> rfl

theorem loadQueue_match (t : QTask) (rest : List QTask) (e : String)
    (h : t.event = e) : loadQueue (t :: rest) (some e) = loadQueue rest none := by
  subst h
  simp [loadQueue]

theorem loadQueue_nomatch (t : QTask) (rest : List QTask) (e : String)
    (h : t.event ≠ e) : loadQueue (t :: rest) (some e) = ⟨t :: rest, [], false⟩ := by
  have hne : ¬ ((some e : Option String) = some t.event) := by
    intro hh
    exact h (Option.some.inj hh).symm
  simp [loadQueue, hne]

/-- C1: for every animation observed by the loop classifier, in loop mode
loop (1) a single raw loop signal accumulated since the last report causes
exactly one LoopEvent emission on the next classification pass and resets
the counter to 0; in mode pingPong (2) one accumulated raw signal causes
zero emissions while two cause exactly one emission and reset the counter
to 0; in mode oneShot (0) any number of raw signals causes zero
emissions. -/
theorem c1_loop_classifier :
    (∀ didLoops : List Bool,
      (classifyLoop 0 (accumulateSignals 0 didLoops)).1 = 0)
    ∧ classifyLoop 1 (accumulateSignals 0 [true]) = (1, 0)
    ∧ classifyLoop 2 (accumulateSignals 0 [true]) = (0, 1)
    ∧ classifyLoop 2 (accumulateSignals 0 [true, true]) = (1, 0) := by
  refine ⟨fun didLoops => rfl, rfl, rfl, rfl⟩

/-- C6: the claim says every loop-mode value outside {0, 1, 2} is rejected
(error logged, no payload fields set).  The source guard is
loopValue < 0 || loopValue > loopTypes.length with loopTypes.length = 3,
so the out-of-range value 3 is accepted: no error is logged, the
animationName and loopType fields are assigned, and loopName is undefined
(none) --- a silent misreport, while 4 and -1 are rejected as the claim
describes.  The off-by-one (> instead of >=) contradicts the intent that
the loop value is an index into loopTypes (comment at line 48). -/
theorem c6_loop_value_three_accepted :
    mkLoopEvent "anim" 3 = (⟨some "anim", some 3, none⟩, false)
    ∧ mkLoopEvent "anim" 4 = (⟨none, none, none⟩, true)
    ∧ mkLoopEvent "anim" (-1) = (⟨none, none, none⟩, true) := by
  refine ⟨by decide, by decide, by decide⟩

theorem advanceSeq_take (ts : List QTask) :
    ∀ k : Nat, advanceSeq ts ((ts.map QTask.event).take k) = ts.drop k := by
  induction ts with
  | nil =>
    intro k
    cases k <;> simp [advanceSeq]
  | cons t rest ih =>
    intro k
    cases k with
    | zero => simp [advanceSeq]
    | succ k =>
      have hstep : (loadQueue (t :: rest) (some t.event)).queue = rest := by
        rw [loadQueue_match t rest t.event rfl, loadQueue_none_queue]
      simp only [List.map_cons, List.take_succ_cons, advanceSeq, List.foldl_cons,
        List.drop_succ_cons]
      rw [hstep]
      exact ih k

/-- C4: enqueueing N tasks gated on milestones m1...mN and advancing the
queue with those milestones in the same order removes all N tasks in FIFO
(insertion) order --- after the first k firings the queue is exactly the
original queue with its first k tasks dropped --- and advancing with a
milestone that does not match the head task removes nothing. -/
theorem c4_taskqueue_fifo :
    (∀ ts : List QTask, ∀ k : Nat,
      advanceSeq ts ((ts.map QTask.event).take k) = ts.drop k)
    ∧ (∀ ts : List QTask, ∀ m : String,
        (∀ t, ts.head? = some t → t.event ≠ m) →
        (loadQueue ts (some m)).queue = ts) := by
  constructor
  · exact advanceSeq_take
  · intro ts m h
    cases ts with
    | nil => rfl
    | cons t rest =>
      rw [loadQueue_nomatch t rest m (h t rfl)]

/-- Witness for C4 at a concrete queue: two tasks gated on "a" then "b",
fired in that order, drain completely; firing the unrelated milestone
"zzz" removes nothing. -/
theorem c4_taskqueue_fifo_witness :
    advanceSeq [⟨"a", some 1⟩, ⟨"b", none⟩] ["a", "b"] = []
    ∧ (loadQueue [⟨"a", some 1⟩, ⟨"b", none⟩] (some "zzz")).queue
        = [⟨"a", some 1⟩, ⟨"b", none⟩] := by
  constructor
  · exact c4_taskqueue_fifo.1 [⟨"a", some 1⟩, ⟨"b", none⟩] 2
  · refine c4_taskqueue_fifo.2 [⟨"a", some 1⟩, ⟨"b", none⟩] "zzz" ?_
    intro t ht
    simp only [List.head?_cons, Option.some.injEq] at ht
    subst ht
    decide

/-! ### Lifetime traces over the task queue (for C5 and C8)

Over the lifetime of a controller the queue is touched by two kinds of
step: an _emit of some event (which calls _loadQueue with that event,
line 212) and a push of a new task (constructor lines 123-135 and play
lines 410-415).  Actions executed by the drain are collected; a crashed
advance leaves the queue as the shift left it, exactly like the JS
exception propagating out of _loadQueue. -/

inductive QStep where
  | fire : String → QStep
  | push : QTask → QStep
deriving DecidableEq

/-- The action id a push step contributes, if any. -/
def stepAct : QStep → Option Nat
  | QStep.push t => t.action
  | QStep.fire _ => none

/-- Action ids contributed by the pushes of a trace. -/
def pushActs (steps : List QStep) : List Nat :=
  steps.filterMap stepAct

/-- Milestones fired by a trace, in order. -/
def firedEvents (steps : List QStep) : List String :=
  steps.filterMap (fun s => match s with
    | QStep.fire e => some e
    | QStep.push _ => none)

/-- Running a trace of steps from a queue, accumulating executed action
ids. -/
def runSteps : List QTask → List Nat → List QStep → List QTask × List Nat
  | q, ex, [] => (q, ex)
  | q, ex, QStep.fire e :: steps =>
    runSteps (loadQueue q (some e)).queue (ex ++ (loadQueue q (some e)).executed) steps
  | q, ex, QStep.push t :: steps => runSteps (q ++ [t]) ex steps

/-- Action ids of the tasks strictly behind the head of the queue.  Only
these can still be executed by a drain: the head of the queue never has
its own action run (a matching fire pops it without invoking the action,
and the implicit no-argument drain only runs the action of the task that
has just become head after a pop). -/
def tailActs (q : List QTask) : List Nat :=
  (q.drop 1).filterMap QTask.action

theorem fire_count (q : List QTask) (e : String) (a : Nat) :
    ((loadQueue q (some e)).executed).count a
      + (tailActs (loadQueue q (some e)).queue).count a
    ≤ (tailActs q).count a := by
  cases q with
  | nil => simp [loadQueue, tailActs]
  | cons t rest =>
    by_cases h : t.event = e
    · rw [loadQueue_match t rest e h, loadQueue_none_queue]
      cases rest with
      | nil => simp [loadQueue, tailActs]
      | cons t2 r2 =>
        rw [loadQueue_none_executed]
        simp only [tailActs, List.drop_succ_cons, List.drop_zero, List.filterMap_cons]
        cases h2 : t2.action with
        | none => simp
        | some b => simp [List.count_cons, Nat.add_comm]
    · rw [loadQueue_nomatch t rest e h]
      simp

theorem tailActs_append (q : List QTask) (t : QTask) (a : Nat) :
    (tailActs (q ++ [t])).count a
      ≤ (tailActs q).count a + t.action.toList.count a := by
  cases q with
  | nil => simp [tailActs]
  | cons h r =>
    simp only [tailActs, List.cons_append, List.drop_succ_cons, List.drop_zero,
      List.filterMap_append, List.count_append]
    have : (List.filterMap QTask.action [t]).count a = t.action.toList.count a := by
      cases h2 : t.action <;> simp [List.filterMap_cons, h2]
    omega

theorem runSteps_count (steps : List QStep) :
    ∀ (q : List QTask) (ex : List Nat) (a : Nat),
      ((runSteps q ex steps).2).count a + (tailActs (runSteps q ex steps).1).count a
      ≤ ex.count a + (tailActs q).count a + (pushActs steps).count a := by
  induction steps with
  | nil =>
    intro q ex a
    simp [runSteps, pushActs]
  | cons s steps ih =>
    intro q ex a
    cases s with
    | fire e =>
      simp only [runSteps]
      have h1 := ih (loadQueue q (some e)).queue
        (ex ++ (loadQueue q (some e)).executed) a
      have h2 := fire_count q e a
      have h3 : pushActs (QStep.fire e :: steps) = pushActs steps := by
        simp [pushActs, List.filterMap_cons, stepAct]
      rw [h3]
      rw [List.count_append] at h1
      omega
    | push t =>
      simp only [runSteps]
      have h1 := ih (q ++ [t]) ex a
      have h2 := tailActs_append q t a
      have h3 : (pushActs (QStep.push t :: steps)).count a
          = t.action.toList.count a + (pushActs steps).count a := by
        simp only [pushActs, List.filterMap_cons, stepAct]
        cases h4 : t.action with
        | none => simp
        | some b => simp [List.count_cons]; omega
      rw [h3]
      omega

theorem tailActs_le (q : List QTask) (a : Nat) :
    (tailActs q).count a ≤ (q.filterMap QTask.action).count a := by
  cases q with
  | nil => simp [tailActs]
  | cons t r =>
    simp only [tailActs, List.drop_succ_cons, List.drop_zero, List.filterMap_cons]
    cases t.action with
    | none => simp
    | some b =>
      simp only [List.count_cons]
      omega

/-- C5: a task enqueued with an action and gated on milestone m, where m
fires exactly once over the controller lifetime (trace of fires and
pushes), has its action executed at most once.  The action id a is
required to identify the task uniquely among all enqueued tasks (initial
queue and pushes). -/
theorem c5_action_at_most_once (q0 : List QTask) (steps : List QStep)
    (t : QTask) (m : String) (a : Nat)
    (ht : t ∈ q0) (hact : t.action = some a) (hm : t.event = m)
    (honce : (firedEvents steps).count m = 1)
    (huniq : ((q0.filterMap QTask.action) ++ pushActs steps).count a ≤ 1) :
    ((runSteps q0 [] steps).2).count a ≤ 1 := by
  have h1 := runSteps_count steps q0 [] a
  have h2 := tailActs_le q0 a
  rw [List.count_append] at huniq
  simp only [List.count_nil] at h1
  omega

/-- Witness for C5: the play task gated on "play" (action id 7), sitting
behind the implicit load marker, runs its action exactly once over the
trace that fires "load" then "play". -/
theorem c5_action_at_most_once_witness :
    ((runSteps [⟨"load", none⟩, ⟨"play", some 7⟩] []
      [QStep.fire "load", QStep.fire "play"]).2).count 7 ≤ 1 :=
  c5_action_at_most_once [⟨"load", none⟩, ⟨"play", some 7⟩]
    [QStep.fire "load", QStep.fire "play"] ⟨"play", some 7⟩ "play" 7
    (by decide) rfl rfl (by decide) (by decide)

/-- C8 counterexample: the claim says that advancing a queue whose head
task has no action --- including the no-milestone-argument drain-now form
--- pops or skips the task without attempting to invoke a missing action.
On the drain-now form the source runs task.action() unconditionally
(line 237), so a queue headed by the pure load marker crashes with a
TypeError (crashed = true) and the task is neither popped nor skipped. -/
theorem c8_drain_now_crashes :
    loadQueue [⟨"load", none⟩] none = ⟨[⟨"load", none⟩], [], true⟩ := by
  decide

/-- C8 amended: advancing with a milestone argument never invokes the
missing action of an action-less head task: a non-matching milestone
leaves the queue unchanged and invokes nothing, and a matching milestone
pops the head without invoking its action --- the implicit drain that
follows then runs the action of the next task if one exists, and raises
an error exactly when that next task also has no action.  The drain-now
(no-argument) form, contrary to the claim, invokes the head action
unconditionally and raises an error when the head has none. -/
theorem c8_advance_with_milestone_safe (t : QTask) (rest : List QTask)
    (m : String) (hact : t.action = none) :
    (t.event ≠ m → loadQueue (t :: rest) (some m) = ⟨t :: rest, [], false⟩)
    ∧ (t.event = m →
        (loadQueue (t :: rest) (some m)).queue = rest
        ∧ ((loadQueue (t :: rest) (some m)).crashed = true
            ↔ ∃ t2 r2, rest = t2 :: r2 ∧ t2.action = none)) := by
  constructor
  · intro hne
    exact loadQueue_nomatch t rest m hne
  · intro heq
    rw [loadQueue_match t rest m heq]
    refine ⟨loadQueue_none_queue rest, ?_⟩
    cases rest with
    | nil => simp [loadQueue]
    | cons t2 r2 =>
      cases h2 : t2.action with
      | none =>
        simp only [loadQueue, h2]
        simp [h2]
      | some b =>
        have hq : (loadQueue (t2 :: r2) none).crashed = false := by
          simp [loadQueue, h2]
        rw [hq]
        simp [h2]

/-- Witness for C8 amended: advancing the action-less load marker with a
non-matching milestone leaves the queue unchanged, and advancing it with
its own milestone pops it without a crash when the next task has an
action. -/
theorem c8_advance_with_milestone_safe_witness :
    loadQueue [⟨"load", none⟩, ⟨"play", some 3⟩] (some "boot")
        = ⟨[⟨"load", none⟩, ⟨"play", some 3⟩], [], false⟩
    ∧ (loadQueue [⟨"load", none⟩, ⟨"play", some 3⟩] (some "load")).queue
        = [⟨"play", some 3⟩]
    ∧ (loadQueue [⟨"load", none⟩, ⟨"play", some 3⟩] (some "load")).crashed
        ≠ true := by
  refine ⟨?_, ?_, ?_⟩
  · exact (c8_advance_with_milestone_safe ⟨"load", none⟩ [⟨"play", some 3⟩]
      "boot" rfl).1 (by decide)
  · exact ((c8_advance_with_milestone_safe ⟨"load", none⟩ [⟨"play", some 3⟩]
      "load" rfl).2 rfl).1
  · intro hcr
    obtain ⟨t2, r2, hr, hact2⟩ :=
      (((c8_advance_with_milestone_safe ⟨"load", none⟩ [⟨"play", some 3⟩]
        "load" rfl).2 rfl).2).mp hcr
    cases hr
    cases hact2

/-! ### The event listener store (on, main.js lines 392-401; _emit lines
200-215)

Listener callbacks are opaque and identified by a natural number; a value
that is not callable is none (the typeof check at line 396).  The store
has one list per recognized event, mirroring the four _on fields the
constructor initializes (lines 115-119). -/

structure EventStore where
  onload : List Nat
  onloaderror : List Nat
  onplay : List Nat
  onloop : List Nat
deriving DecidableEq

/-- The dynamic lookup self["_on" ++ event] for the recognized events. -/
def getListeners (st : EventStore) : String → List Nat
  | "load" => st.onload
  | "loaderror" => st.onloaderror
  | "play" => st.onplay
  | "loop" => st.onloop
  | _ => []

/-- on(event, fn) (lines 392-401): pushes the callback on the list for
the event when it is callable, otherwise changes nothing. -/
def onEvent (st : EventStore) (e : String) (fn : Option Nat) : EventStore :=
  match fn with
  | some f =>
    match e with
    | "load" => { st with onload := st.onload ++ [f] }
    | "loaderror" => { st with onloaderror := st.onloaderror ++ [f] }
    | "play" => { st with onplay := st.onplay ++ [f] }
    | "loop" => { st with onloop := st.onloop ++ [f] }
    | _ => st
  | none => st

/-- The scheduling loop of _emit (lines 204-209): for i from
events.length - 1 down to 0, a deferred invocation of events[i] with the
message is scheduled (setTimeout with delay 0).  Walking the list from
the back is List.reverse followed by scheduling each entry in order. -/
def scheduleRev (fns : List Nat) (msg : String) : List (Nat × String) :=
  fns.reverse.map (fun f => (f, msg))

/-- emit(event, msg) dispatch (lines 200-209): the deferred invocations
scheduled for the currently registered listeners of the event. -/
def emitSchedule (st : EventStore) (e msg : String) : List (Nat × String) :=
  scheduleRev (getListeners st e) msg

/-- Recognized lifecycle events of the controller. -/
def recognizedEvents : List String := ["load", "loaderror", "play", "loop"]

theorem count_map_pair (fns : List Nat) (msg : String) (f : Nat) :
    ((fns.map (fun x => (x, msg))).count (f, msg)) = fns.count f := by
  induction fns with
  | nil => rfl
  | cons x rest ih =>
    simp only [List.map_cons, List.count_cons, ih]
    by_cases hx : x = f
    · subst hx
      simp
    · simp [hx]

theorem scheduleRev_count (fns : List Nat) (msg : String) (f : Nat) :
    (scheduleRev fns msg).count (f, msg) = fns.count f := by
  unfold scheduleRev
  rw [count_map_pair, List.count_reverse]

/-- C7: registering a listener on a recognized event appends it to that
event list, and a single emit on a recognized event schedules every
currently registered listener of that event for invocation with the
payload, each listener entry exactly once. -/
theorem c7_emit_each_listener_once (st : EventStore) (e msg : String)
    (f : Nat) (he : e ∈ recognizedEvents) :
    getListeners (onEvent st e (some f)) e = getListeners st e ++ [f]
    ∧ (emitSchedule st e msg).length = (getListeners st e).length
    ∧ (emitSchedule st e msg).count (f, msg) = (getListeners st e).count f := by
  refine ⟨?_, ?_, ?_⟩
  · simp only [recognizedEvents, List.mem_cons, List.not_mem_nil, or_false] at he
    rcases he with rfl | rfl | rfl | rfl <;> rfl
  · simp [emitSchedule, scheduleRev]
  · exact scheduleRev_count (getListeners st e) msg f

/-- Witness for C7: one listener (id 5) on the play event is scheduled
exactly once with the payload. -/
theorem c7_emit_each_listener_once_witness :
    getListeners (onEvent ⟨[], [], [9, 5], []⟩ "play" (some 5)) "play"
        = [9, 5] ++ [5]
    ∧ (emitSchedule ⟨[], [], [9, 5], []⟩ "play" "msg").length
        = (getListeners ⟨[], [], [9, 5], []⟩ "play").length
    ∧ (emitSchedule ⟨[], [], [9, 5], []⟩ "play" "msg").count (5, "msg")
        = (getListeners ⟨[], [], [9, 5], []⟩ "play").count 5 :=
  c7_emit_each_listener_once ⟨[], [], [9, 5], []⟩ "play" "msg" 5 (by decide)

/-! ### The controller (RiveAnimation, main.js lines 67-139, 150-192,
247-282, 406-425)

State of one controller.  External collaborators are reduced to what the
claims need: the canvas, renderer and engine handles are opaque and
carry no state here; requestAnimationFrame registrations of the bound
_draw are counted in raf; listener dispatch is recorded as the list of
(event, message) pairs passed to _emit.  The artboard selected from the
file (by name or default, lines 252-254) is summarized by the number of
animations it contains, a model parameter, since the file content is
external.  The animations option is already normalized to an optional
list of names (the constructor wraps a single string into a one-element
array, lines 85-91, and stores null when the option is absent). -/

structure CTask where
  event : String
  hasAction : Bool
deriving DecidableEq

structure CtrlState where
  src : String
  artboardName : Option String
  animationNames : Option (List String)
  artboardAnimCount : Nat
  loaded : Bool
  queue : List CTask
  raf : Nat
  emitted : List (String × String)
  initCount : Nat
  instanceCount : Nat
  usesAnimationAt0 : Bool
deriving DecidableEq

/-- Result of running a piece of controller code: normal return, an
exception propagating out (crash), or exhaustion of the step fuel of the
model (never reached in the theorems below). -/
inductive RunRes where
  | ok : CtrlState → RunRes
  | crash : CtrlState → RunRes
  | fuelOut : RunRes
deriving DecidableEq

/-- The three mutually re-entrant pieces of controller code: play
(lines 406-425), _emit (lines 200-215) and _loadQueue (lines 224-242).
In the source they call each other through the queued play closures; the
model expresses them as a single fuel-indexed step function so that every
run is a finite computation. -/
inductive Call where
  | play : Call
  | emit : String → String → Call
  | lq : Option String → Call
deriving DecidableEq

/-- One controller call.
play (lines 406-425): when the file is not loaded, a play task carrying
a self.play closure is pushed and the call returns.  When loaded,
requestAnimationFrame(self._draw.bind(self)) is registered (raf + 1,
line 420) and then the play message is built by joining
self._animationNames (line 423) --- which is null when no animations were
given, so the join raises a TypeError before the play event is emitted;
otherwise _emit("play", msg) runs.
emit (lines 200-215): records the (event, msg) dispatch to the listeners
(each scheduled via setTimeout) and then steps the queue with the event.
lq (lines 224-242): exactly the _loadQueue of the generic model, with the
play closure of an executed task interpreted by a re-entrant play call on
the current state (the shift has already happened), as in the source
where the closure body runs against the shared queue. -/
def stepCall : Nat → Call → CtrlState → RunRes
  | 0, _, _ => RunRes.fuelOut
  | fuel + 1, Call.play, s =>
    if s.loaded then
      let s1 : CtrlState := { s with raf := s.raf + 1 }
      match s1.animationNames with
      | none => RunRes.crash s1
      | some names =>
        stepCall fuel (Call.emit "play" ("Playing: " ++ String.intercalate ", " names)) s1
    else
      RunRes.ok { s with queue := s.queue ++ [⟨"play", true⟩] }
  | fuel + 1, Call.emit e msg, s =>
    stepCall fuel (Call.lq (some e)) { s with emitted := s.emitted ++ [(e, msg)] }
  | fuel + 1, Call.lq event, s =>
    match s.queue with
    | [] => RunRes.ok s
    | t :: rest =>
      match event with
      | some e =>
        if e = t.event then stepCall fuel (Call.lq none) { s with queue := rest }
        else RunRes.ok s
      | none =>
        if t.hasAction then stepCall fuel Call.play s
        else RunRes.crash s

/-- play() of the controller. -/
def playCtrl (fuel : Nat) (s : CtrlState) : RunRes :=
  stepCall fuel Call.play s

/-- _emit(event, msg) of the controller. -/
def emitCtrl (fuel : Nat) (e msg : String) (s : CtrlState) : RunRes :=
  stepCall fuel (Call.emit e msg) s

/-- _initializePlayback (lines 247-282): selects the artboard (counted by
initCount), raises after emitting loaderror when the artboard has no
animations (lines 257-260), otherwise builds the animation list ---
[artboard.animationAt(0)] when no names were given (lines 267-269),
otherwise one animation per requested name (line 271) --- and one
instance per animation (line 274). -/
def initializePlayback (fuel : Nat) (s : CtrlState) : RunRes :=
  let s1 : CtrlState := { s with initCount := s.initCount + 1 }
  if s1.artboardAnimCount < 1 then
    match emitCtrl fuel "loaderror" "Artboard has no animations" s1 with
    | RunRes.ok s2 => RunRes.crash s2
    | r => r
  else
    match s1.animationNames with
    | none => RunRes.ok { s1 with instanceCount := 1, usesAnimationAt0 := true }
    | some names => RunRes.ok { s1 with instanceCount := names.length }

/-- The continuation of _loadRiveFile (lines 160-192) after the fetch has
resolved and rive.load has produced a truthy file: set _loaded, run
_initializePlayback, paint the first frame (pure rendering, no state
here), and emit the load event; any exception from this body is caught by
the .catch handler, which emits loaderror with the unable-to-load message
and rethrows. -/
def loadRiveFile (fuel : Nat) (s : CtrlState) : RunRes :=
  let body : RunRes :=
    let s1 : CtrlState := { s with loaded := true }
    match initializePlayback fuel s1 with
    | RunRes.ok s2 => emitCtrl fuel "load" ("File " ++ s1.src ++ " loaded") s2
    | r => r
  match body with
  | RunRes.crash s3 =>
    match emitCtrl fuel "loaderror" ("Unable to load " ++ s.src) s3 with
    | RunRes.ok s4 => RunRes.crash s4
    | r => r
  | r => r

/-- The RiveAnimation constructor (lines 67-139): requires a source;
normalizes the animations option; registers the initial listeners
(recorded elsewhere); pushes the implicit load marker task (lines
123-125) and, when autoplay is set, a play task carrying a self.play
closure (lines 128-135).  Loading then proceeds asynchronously. -/
def construct (src : String) (artboard : Option String)
    (animations : Option (List String)) (autoplay : Bool)
    (artboardAnimCount : Nat) : Option CtrlState :=
  if src = "" then none
  else some
    { src := src
      artboardName := artboard
      animationNames := animations
      artboardAnimCount := artboardAnimCount
      loaded := false
      queue := ⟨"load", false⟩ :: (if autoplay then [⟨"play", true⟩] else [])
      raf := 0
      emitted := []
      initCount := 0
      instanceCount := 0
      usesAnimationAt0 := false }

/-- The controller state right after construct with autoplay, a
resolvable source, and no animations option. -/
def c2Start : CtrlState :=
  { src := "truck.riv"
    artboardName := none
    animationNames := none
    artboardAnimCount := 3
    loaded := false
    queue := [⟨"load", false⟩, ⟨"play", true⟩]
    raf := 0
    emitted := []
    initCount := 0
    instanceCount := 0
    usesAnimationAt0 := false }

/-- Where the load flow of c2Start actually ends. -/
def c2Final : CtrlState :=
  { src := "truck.riv"
    artboardName := none
    animationNames := none
    artboardAnimCount := 3
    loaded := true
    queue := [⟨"play", true⟩]
    raf := 1
    emitted := [("load", "File truck.riv loaded"),
      ("loaderror", "Unable to load truck.riv")]
    initCount := 1
    instanceCount := 1
    usesAnimationAt0 := true }

/-- C2 (failing input): the claim says that with autoplay, a resolvable
src and no animations, after load the frame loop runs on the first
animation and a play event has been emitted.  In the code the queued
autoplay closure calls play() once load fires: requestAnimationFrame is
registered (raf = 1, on the single instance built from animationAt(0))
but the play message then joins the null animationNames, raising a
TypeError before _emit("play"); the exception falls into the fetch catch
handler, which emits loaderror.  So the load phase ends in a crash with
no play event ever dispatched. -/
theorem c2_autoplay_never_emits_play :
    construct "truck.riv" none none true 3 = some c2Start
    ∧ loadRiveFile 20 c2Start = RunRes.crash c2Final
    ∧ c2Final.raf = 1
    ∧ c2Final.usesAnimationAt0 = true
    ∧ c2Final.instanceCount = 1
    ∧ (c2Final.emitted.map Prod.fst).count "play" = 0
    ∧ (c2Final.emitted.map Prod.fst).count "loaderror" = 1 := by
  refine ⟨by decide, by decide, rfl, rfl, rfl, by decide, by decide⟩

/-- The controller state right after construct without autoplay, a
resolvable source, and no animations option. -/
def c3Start : CtrlState :=
  { src := "truck.riv"
    artboardName := none
    animationNames := none
    artboardAnimCount := 3
    loaded := false
    queue := [⟨"load", false⟩]
    raf := 0
    emitted := []
    initCount := 0
    instanceCount := 0
    usesAnimationAt0 := false }

/-- c3Start after one early play() call: a play task is queued. -/
def c3Queued : CtrlState :=
  { c3Start with queue := [⟨"load", false⟩, ⟨"play", true⟩] }

/-- Where the load flow of c3Queued actually ends. -/
def c3Final : CtrlState :=
  { src := "truck.riv"
    artboardName := none
    animationNames := none
    artboardAnimCount := 3
    loaded := true
    queue := [⟨"play", true⟩]
    raf := 1
    emitted := [("load", "File truck.riv loaded"),
      ("loaderror", "Unable to load truck.riv")]
    initCount := 1
    instanceCount := 1
    usesAnimationAt0 := true }

/-- C3 (failing input): the claim says every play task queued by play()
calls issued before load executes without raising an error once load
fires (and playback is initialized exactly once).  With the default
no-animations configuration one early play() call queues one play task;
when load fires, playback initialization does happen exactly once
(initCount = 1), but the queued task crashes with a TypeError (join on
the null animationNames, after requestAnimationFrame but before the play
emit), so the task does not execute without error and no play event is
dispatched. -/
theorem c3_queued_play_task_raises :
    construct "truck.riv" none none false 3 = some c3Start
    ∧ playCtrl 5 c3Start = RunRes.ok c3Queued
    ∧ loadRiveFile 20 c3Queued = RunRes.crash c3Final
    ∧ c3Final.initCount = 1
    ∧ (c3Final.emitted.map Prod.fst).count "play" = 0 := by
  refine ⟨by decide, by decide, by decide, rfl, by decide⟩

/-- Character-list test used to ask whether one string occurs inside
another (whether a message names the artboard). -/
def startsWithChars : List Char → List Char → Bool
  | [], _ => true
  | _ :: _, [] => false
  | a :: as, b :: bs => a == b && startsWithChars as bs

/-- Does the needle occur somewhere in the haystack? -/
def occursIn : List Char → List Char → Bool
  | needle, [] => startsWithChars needle []
  | needle, c :: t => startsWithChars needle (c :: t) || occursIn needle t

/-- Does the string hay contain the string needle as a substring? -/
def containsStr (hay needle : String) : Bool :=
  occursIn needle.data hay.data

/-- The controller state right after construct with the named artboard
Truck whose animation count is zero. -/
def c9Start : CtrlState :=
  { src := "anim.riv"
    artboardName := some "Truck"
    animationNames := none
    artboardAnimCount := 0
    loaded := false
    queue := [⟨"load", false⟩]
    raf := 0
    emitted := []
    initCount := 0
    instanceCount := 0
    usesAnimationAt0 := false }

/-- Where the load flow of c9Start actually ends. -/
def c9Final : CtrlState :=
  { src := "anim.riv"
    artboardName := some "Truck"
    animationNames := none
    artboardAnimCount := 0
    loaded := true
    queue := [⟨"load", false⟩]
    raf := 0
    emitted := [("loaderror", "Artboard has no animations"),
      ("loaderror", "Unable to load anim.riv")]
    initCount := 1
    instanceCount := 0
    usesAnimationAt0 := false }

/-- C9 counterexample: the claim says the loaderror emitted for a
zero-animation artboard carries a message naming that artboard.  For the
artboard named Truck the two loaderror messages actually emitted are the
fixed string from line 258 and the catch-handler string from line 188;
neither contains the artboard name. -/
theorem c9_message_does_not_name_artboard :
    construct "anim.riv" (some "Truck") none false 0 = some c9Start
    ∧ loadRiveFile 20 c9Start = RunRes.crash c9Final
    ∧ c9Final.emitted = [("loaderror", "Artboard has no animations"),
        ("loaderror", "Unable to load anim.riv")]
    ∧ containsStr "Artboard has no animations" "Truck" = false
    ∧ containsStr "Unable to load anim.riv" "Truck" = false := by
  refine ⟨by decide, by decide, rfl, by decide, by decide⟩

/-- C9 amended: whenever the selected artboard has zero animations, the
load flow ends in a crash after emitting loaderror --- but with the fixed
message "Artboard has no animations", which does not name the artboard
(a second loaderror with the catch-handler message follows because the
thrown error lands in the fetch catch) --- and playback does not start
during the load flow: no frame callback is ever registered. -/
theorem c9_zero_animations_no_playback (src : String) (name : Option String)
    (anims : Option (List String)) (autoplay : Bool) (s0 : CtrlState)
    (h : construct src name anims autoplay 0 = some s0) :
    ∃ s, loadRiveFile 20 s0 = RunRes.crash s
      ∧ s.raf = 0
      ∧ ("loaderror", "Artboard has no animations") ∈ s.emitted
      ∧ s.emitted.map Prod.fst = ["loaderror", "loaderror"] := by
  unfold construct at h
  split at h
  · exact absurd h (by simp)
  · replace h := Option.some.inj h
    subst h
    cases autoplay with
    | false => exact ⟨_, rfl, rfl, List.mem_cons_self _ _, rfl⟩
    | true => exact ⟨_, rfl, rfl, List.mem_cons_self _ _, rfl⟩

/-- Witness for C9 amended at the concrete Truck configuration. -/
theorem c9_zero_animations_no_playback_witness :
    ∃ s, loadRiveFile 20 c9Start = RunRes.crash s
      ∧ s.raf = 0
      ∧ ("loaderror", "Artboard has no animations") ∈ s.emitted
      ∧ s.emitted.map Prod.fst = ["loaderror", "loaderror"] :=
  c9_zero_animations_no_playback "anim.riv" (some "Truck") none false c9Start
    (by decide)

/-! ### Concurrent frame-loop chains (play line 420, _draw lines 308-387)

The host frame-scheduling primitive is modelled as a counter of
registered draw callbacks: requestAnimationFrame(self._draw.bind(self))
adds one registration, and one display frame invokes every registration
made before it.  The per-instance work of one _draw invocation (each
active instance is advanced by the elapsed time and applied to the
artboard exactly once, lines 323-332) is summarized by a counter of
advance-and-apply calls per instance. -/

structure FrameHost where
  pending : Nat
  advancesPerInstance : Nat
deriving DecidableEq

/-- One invocation of _draw: advances and applies each instance once and
unconditionally re-registers itself (line 385). -/
def drawStep (h : FrameHost) : FrameHost :=
  ⟨h.pending + 1, h.advancesPerInstance + 1⟩

def runCallbacks : Nat → FrameHost → FrameHost
  | 0, h => h
  | n + 1, h => runCallbacks n (drawStep h)

/-- One display frame: the host takes the registered callbacks and
invokes each exactly once. -/
def displayFrame (h : FrameHost) : FrameHost :=
  runCallbacks h.pending ⟨0, h.advancesPerInstance⟩

def displayFrames : Nat → FrameHost → FrameHost
  | 0, h => h
  | m + 1, h => displayFrames m (displayFrame h)

/-- play() on a loaded controller registers one more independent draw
chain (line 420 runs before the message join of line 423, so the
registration happens even on the configurations where play subsequently
throws); there is no guard checking whether a loop already runs. -/
def playRegister (h : FrameHost) : FrameHost :=
  ⟨h.pending + 1, h.advancesPerInstance⟩

def playRegisters : Nat → FrameHost → FrameHost
  | 0, h => h
  | k + 1, h => playRegisters k (playRegister h)

theorem playRegisters_val : ∀ (k p a : Nat),
    playRegisters k ⟨p, a⟩ = ⟨p + k, a⟩ := by
  intro k
  induction k with
  | zero => intro p a; simp [playRegisters]
  | succ k ih =>
    intro p a
    show playRegisters k ⟨p + 1, a⟩ = ⟨p + (k + 1), a⟩
    rw [ih (p + 1) a]
    congr 1
    omega

theorem runCallbacks_val : ∀ (n p a : Nat),
    runCallbacks n ⟨p, a⟩ = ⟨p + n, a + n⟩ := by
  intro n
  induction n with
  | zero => intro p a; simp [runCallbacks]
  | succ n ih =>
    intro p a
    show runCallbacks n ⟨p + 1, a + 1⟩ = ⟨p + (n + 1), a + (n + 1)⟩
    rw [ih (p + 1) (a + 1)]
    congr 1
    omega
    omega

theorem displayFrames_val : ∀ (m k a : Nat),
    displayFrames m ⟨k, a⟩ = ⟨k, a + m * k⟩ := by
  intro m
  induction m with
  | zero => intro k a; simp [displayFrames]
  | succ m ih =>
    intro k a
    show displayFrames m (displayFrame ⟨k, a⟩) = ⟨k, a + (m + 1) * k⟩
    have hframe : displayFrame ⟨k, a⟩ = ⟨k, a + k⟩ := by
      unfold displayFrame
      rw [runCallbacks_val k 0 a]
      congr 1
      omega
    rw [hframe, ih k (a + k)]
    congr 1
    ring

/-- C10: k post-load play() calls register k concurrent draw chains, and
because every chain unconditionally reschedules itself each tick, after
any m display frames there are still exactly k pending registrations and
every animation instance has been advanced and applied m * k times ---
k times per display frame, with nothing deduplicating or stopping the
chains. -/
theorem c10_concurrent_draw_chains : ∀ k m : Nat,
    displayFrames m (playRegisters k ⟨0, 0⟩) = ⟨k, m * k⟩
    ∧ (displayFrames m (playRegisters k ⟨0, 0⟩)).pending = k
    ∧ (displayFrames m (playRegisters k ⟨0, 0⟩)).advancesPerInstance = m * k := by
  intro k m
  have h0 : playRegisters k ⟨0, 0⟩ = ⟨k, 0⟩ := by
    rw [playRegisters_val k 0 0]
    congr 1
    omega
  have h1 : displayFrames m (playRegisters k ⟨0, 0⟩) = ⟨k, m * k⟩ := by
    rw [h0, displayFrames_val m k 0]
    congr 1
    omega
  exact ⟨h1, by rw [h1], by rw [h1]⟩
